import Mathlib

/-!
Verification development for the ledger repository's branch / analytics
pipeline.  The data model and the IPC handlers are embedded from the
TypeScript sources (`src/lib/conveyor/handlers/branch-handler.ts`,
`src/app/components/panels/list/BranchList.tsx`, and the zod schemas).
The aggregation core (`git-service.ts`) is not part of the provided
sources; the definitions that depend on it are modelled from the spec
and say so in their doc comments.
-/

namespace Ledger

/-- Bucket sizes accepted by the contributor-statistics operations
(zod enum in the analytics IPC schema). -/
inductive BucketSize
  | day
  | week
  | month
deriving DecidableEq

/-- One local or remote branch.  Fields are those consumed by the embedded
operations (`filterBranches` in `BranchList.tsx` reads `name`, `isMerged`,
`isLocalOnly`); the remaining flags follow the spec's `Branch` row. -/
structure Branch where
  name : String
  isRemote : Bool
  isLocalOnly : Bool
  isMerged : Bool
  current : Bool
deriving DecidableEq

/-- Branch list filter selector (`BranchFilter` in `BranchList.tsx`). -/
inductive BranchFilter
  | localOnly
  | unmerged
  | all
deriving DecidableEq

/-- `filterBranches` from `src/app/components/panels/list/BranchList.tsx`
(lines 41-55): `local-only` keeps local-only branches, `unmerged` keeps
unmerged branches but always includes `main`/`master`, `all` is the
identity. -/
def filterBranches (branchList : List Branch) (filter : BranchFilter) : List Branch :=
  match filter with
  | .localOnly => branchList.filter (fun b => b.isLocalOnly)
  | .unmerged => branchList.filter (fun b => !b.isMerged || (b.name == "main" || b.name == "master"))
  | .all => branchList

/-- Result shape of the branch-listing IPC handlers: either a branch list
or an `{error}` object carrying the thrown error's message. -/
inductive BranchesResult
  | branches (value : List Branch)
  | error (message : String)
deriving DecidableEq

/-- The `get-branches-basic` handler from
`src/lib/conveyor/handlers/branch-handler.ts` (lines 22-28): awaits the
underlying `getBranchesBasic` call, and on a thrown error returns
`{error: message}`.  The underlying call's outcome is the `Except`
argument. -/
def getBranchesBasicHandler (outcome : Except String (List Branch)) : BranchesResult :=
  match outcome with
  | .ok bs => .branches bs
  | .error m => .error m

/-- The `get-branches-with-metadata` handler from
`src/lib/conveyor/handlers/branch-handler.ts` (lines 30-36); identical
catch structure to the basic handler. -/
def getBranchesWithMetadataHandler (outcome : Except String (List Branch)) : BranchesResult :=
  match outcome with
  | .ok bs => .branches bs
  | .error m => .error m

/-- One point of a contributor time series (zod
`ContributorTimeSeriesSchema.timeSeries` element). -/
structure TimeSeriesPoint where
  date : String
  count : Nat
deriving DecidableEq

/-- One contributor's aggregated series (zod `ContributorTimeSeriesSchema`). -/
structure ContributorTimeSeries where
  author : String
  email : String
  totalCommits : Nat
  timeSeries : List TimeSeriesPoint
deriving DecidableEq

/-- Payload of `get-contributor-stats` (zod `ContributorStatsSchema`). -/
structure ContributorStatsPayload where
  contributors : List ContributorTimeSeries
  startDate : String
  endDate : String
  bucketSize : BucketSize
deriving DecidableEq

/-- The fallback payload fabricated by the `get-contributor-stats` handler's
catch block (`branch-handler.ts` lines 90-97): empty contributors, empty
dates, and the requested bucket size defaulting to `week`. -/
def contributorStatsFallback (bucketSize : Option BucketSize) : ContributorStatsPayload :=
  ⟨[], "", "", bucketSize.getD .week⟩

/-- The `get-contributor-stats` handler from
`src/lib/conveyor/handlers/branch-handler.ts` (lines 87-98): on success it
passes the aggregation result through; on a thrown error it returns the
fallback payload (it does not rethrow). -/
def getContributorStatsHandler (bucketSize : Option BucketSize)
    (outcome : Except String ContributorStatsPayload) : Except String ContributorStatsPayload :=
  match outcome with
  | .ok result => .ok result
  | .error _ => .ok (contributorStatsFallback bucketSize)

/-- Diff stats of one merged branch (zod `TechTreeNodeStatsSchema`). -/
structure TechTreeNodeStats where
  linesAdded : Nat
  linesRemoved : Nat
  filesChanged : Nat
  filesAdded : Nat
  filesRemoved : Nat
  commitCount : Nat
  daysSinceMerge : Nat
deriving DecidableEq

/-- Size tiers of a merged branch (zod `TechTreeNodeSchema.sizeTier`). -/
inductive SizeTier
  | xs
  | sm
  | md
  | lg
  | xl
deriving DecidableEq

/-- Branch type classification (zod `TechTreeNodeSchema.branchType`). -/
inductive BranchType
  | feature
  | fix
  | chore
  | refactor
  | docs
  | test
  | release
  | unknown
deriving DecidableEq

/-- Badge set of a merged branch (zod `TechTreeNodeSchema.badges`). -/
structure Badges where
  massive : Bool
  destructive : Bool
  additive : Bool
  multiFile : Bool
  surgical : Bool
  ancient : Bool
  fresh : Bool
deriving DecidableEq

/-- One merged branch node (zod `TechTreeNodeSchema`). -/
structure TechTreeNode where
  id : String
  branchName : String
  commitHash : String
  mergeCommitHash : String
  author : String
  mergeDate : String
  message : String
  prNumber : Option Nat
  stats : TechTreeNodeStats
  sizeTier : SizeTier
  branchType : BranchType
  badges : Badges
deriving DecidableEq

/-- Global min/max envelope over a tech-tree node set (zod
`TechTreeDataSchema.stats`). -/
structure TechTreeEnvelope where
  minLoc : Nat
  maxLoc : Nat
  minFiles : Nat
  maxFiles : Nat
  minAge : Nat
  maxAge : Nat
deriving DecidableEq

/-- Payload of `get-merged-branch-tree` (zod `TechTreeDataSchema`). -/
structure TechTreeData where
  masterBranch : String
  nodes : List TechTreeNode
  stats : TechTreeEnvelope
deriving DecidableEq

/-- The fallback payload fabricated by the `get-merged-branch-tree`
handler's catch block (`branch-handler.ts` lines 103-109). -/
def mergedBranchTreeFallback : TechTreeData :=
  ⟨"main", [], ⟨0, 1, 0, 1, 0, 1⟩⟩

/-- The `get-merged-branch-tree` handler from
`src/lib/conveyor/handlers/branch-handler.ts` (lines 100-110): passes the
aggregation result through, and on a thrown error returns the fixed
fallback tree (it does not rethrow). -/
def getMergedBranchTreeHandler (_limit : Option Nat)
    (outcome : Except String TechTreeData) : Except String TechTreeData :=
  match outcome with
  | .ok result => .ok result
  | .error _ => .ok mergedBranchTreeFallback

/-- Modelled from the spec: total changed lines of a merged branch
(`git-service.ts` is not among the provided sources).  Spec section 4.4
classifies `sizeTier` "from total changed lines". -/
def totalLines (s : TechTreeNodeStats) : Nat :=
  s.linesAdded + s.linesRemoved

/-- Modelled from the spec: `sizeTier` thresholds from section 4.4
(`xs < 10, sm < 100, md < 500, lg < 2000, xl ≥ 2000`); the implementing
`git-service.ts` is not among the provided sources. -/
def classifySizeTier (total : Nat) : SizeTier :=
  if total < 10 then .xs
  else if total < 100 then .sm
  else if total < 500 then .md
  else if total < 2000 then .lg
  else .xl

/-- Numeric index of a size tier in the order `xs < sm < md < lg < xl`. -/
def tierIdx : SizeTier → Nat
  | .xs => 0
  | .sm => 1
  | .md => 2
  | .lg => 3
  | .xl => 4

/-- Modelled from the spec: the ordered first-match-wins branch-type rules
of section 4.4 step 3; the implementing `git-service.ts` is not among the
provided sources.  Branch names are lists of characters so that prefix
reasoning can use the list prefix order. -/
def classifyBranchType (name : List Char) : BranchType :=
  if ("feature/".toList).isPrefixOf name then .feature
  else if ("fix/".toList).isPrefixOf name then .fix
  else if ("bugfix/".toList).isPrefixOf name then .fix
  else if ("chore/".toList).isPrefixOf name then .chore
  else if ("refactor/".toList).isPrefixOf name then .refactor
  else if ("docs/".toList).isPrefixOf name then .docs
  else if ("test/".toList).isPrefixOf name then .test
  else if ("release/".toList).isPrefixOf name then .release
  else .unknown

/-- Modelled from the spec: the independent badge predicates of section 4.4
step 5; the implementing `git-service.ts` is not among the provided
sources. -/
def computeBadges (s : TechTreeNodeStats) : Badges :=
  ⟨decide (totalLines s ≥ 2000),
   decide (s.linesRemoved > s.linesAdded * 2),
   decide (s.linesAdded > s.linesRemoved * 5),
   decide (s.filesChanged > 10),
   decide (s.filesChanged ≤ 2) && decide (totalLines s < 100),
   decide (s.daysSinceMerge > 180),
   decide (s.daysSinceMerge < 2)⟩

/-- Modelled from the spec: derivation of one `TechTreeNode` from a merge
commit's branch name and diff stats (section 4.4 steps 3-5); the
implementing `git-service.ts` is not among the provided sources.  The id
is the merge commit hash. -/
def deriveTechTreeNode (branchName : List Char)
    (mergeCommitHash commitHash author mergeDate message : String)
    (prNumber : Option Nat) (s : TechTreeNodeStats) : TechTreeNode :=
  ⟨mergeCommitHash, String.mk branchName, commitHash, mergeCommitHash, author,
   mergeDate, message, prNumber, s,
   classifySizeTier (totalLines s), classifyBranchType branchName, computeBadges s⟩

/-- The spec's section 8 scenario input: a merge from `fix/login-bug`,
12 added and 3 removed lines across 2 files, merged 1 day ago. -/
def scenarioStats : TechTreeNodeStats :=
  ⟨12, 3, 2, 0, 0, 1, 1⟩

/-- The `TechTreeNode` the model derives for the section 8 scenario. -/
def scenarioNode : TechTreeNode :=
  deriveTechTreeNode ("fix/login-bug".toList) "m1" "c1" "alice" "2024-01-01"
    "Merge branch fix/login-bug" none scenarioStats

/-- One commit of the commit-graph builder: hash plus ordered parent
hashes (spec `Commit` row; `git-service.ts` is not among the provided
sources). -/
structure Commit where
  hash : String
  parents : List String
deriving DecidableEq

/-- Modelled from the spec: one step of the section 4.3 lane-assignment
algorithm; the implementing `git-service.ts` is not among the provided
sources.  Active lanes hold the hash each lane is waiting for (`none` is a
free, reusable lane).  A commit lands on the first lane waiting for its
hash, else on the first free lane, else on a fresh appended lane; the
lane then waits for the commit's first parent, and every additional
parent spawns a new lane appended after the existing ones. -/
def placeCommit (lanes : List (Option String)) (c : Commit) : Nat × List (Option String) :=
  let extra := (c.parents.drop 1).map (fun p => some p)
  match lanes.findIdx? (fun w => w == some c.hash) with
  | some i => (i, (lanes.set i c.parents.head?) ++ extra)
  | none =>
    match lanes.findIdx? (fun w => w == (none : Option String)) with
    | some i => (i, (lanes.set i c.parents.head?) ++ extra)
    | none => (lanes.length, (lanes ++ [c.parents.head?]) ++ extra)

/-- Modelled from the spec: fold of `placeCommit` over the newest-first
commit list, recording each commit's lane index. -/
def assignLanesGo (lanes : List (Option String)) : List Commit → List (Commit × Nat)
  | [] => []
  | c :: rest =>
    let placed := placeCommit lanes c
    (c, placed.1) :: assignLanesGo placed.2 rest

/-- Modelled from the spec: the section 4.3 lane assignment, starting from
no active lanes. -/
def assignLanes (commits : List Commit) : List (Commit × Nat) :=
  assignLanesGo [] commits

/-- Helper for `topoOrdered`: `seen` collects the hashes of already
processed (newer) commits. -/
def topoOrderedGo (seen : List String) : List Commit → Bool
  | [] => true
  | c :: rest =>
    !(seen.contains c.hash) &&
      c.parents.all (fun p => !(seen.contains p) && p != c.hash) &&
      topoOrderedGo (c.hash :: seen) rest

/-- Decidable form of "parent links form a DAG" for a newest-first commit
list: hashes are distinct and every parent link points to a strictly
older commit (or outside the window), never to itself or a newer one. -/
def topoOrdered (commits : List Commit) : Bool :=
  topoOrderedGo [] commits

/-- One mailmap alias rule (spec `MailmapEntry` row). -/
structure MailmapEntry where
  canonicalName : String
  canonicalEmail : String
  aliasName : String
  aliasEmail : String
deriving DecidableEq

/-- A raw author name/email pair. -/
structure RawAuthor where
  name : String
  email : String
deriving DecidableEq

/-- A commit as consumed by the contributor-statistics aggregator: its raw
author and its timestamp, measured in whole days for bucketing. -/
structure AuthorCommit where
  author : RawAuthor
  timestamp : Nat
deriving DecidableEq

/-- Modelled from the spec: section 4.5 identity resolution; the
implementing `git-service.ts` is not among the provided sources.
Exact-match lookup against the mailmap aliases first; an uncovered raw
pair is its own singleton identity. -/
def resolveIdentity (mailmap : List MailmapEntry) (a : RawAuthor) : RawAuthor :=
  match mailmap.find? (fun e => e.aliasName == a.name && e.aliasEmail == a.email) with
  | some e => ⟨e.canonicalName, e.canonicalEmail⟩
  | none => a

/-- Modelled from the spec: the bucket key of section 4.6, on day-granular
timestamps (day: the day itself; week/month: start of the enclosing 7- or
30-day window).  The calendar details of ISO weeks and calendar months
are abstracted to fixed-width windows; the claims proved below do not
depend on the key's shape, only on it being a function of the
timestamp. -/
def bucketStart (b : BucketSize) (t : Nat) : Nat :=
  match b with
  | .day => t
  | .week => t - t % 7
  | .month => t - t % 30

/-- One point of an aggregated series: bucket start and commit count. -/
structure SeriesPoint where
  date : Nat
  count : Nat
deriving DecidableEq

/-- Aggregated activity of one resolved identity (spec `ContributorStats`
row, with day-granular bucket keys). -/
structure ContributorSeries where
  author : String
  email : String
  totalCommits : Nat
  timeSeries : List SeriesPoint
deriving DecidableEq

/-- Modelled from the spec: the per-identity series of section 4.6 — the
commits resolving to the identity, bucketed by `bucketStart`, with
`totalCommits` the number of such commits. -/
def seriesFor (mailmap : List MailmapEntry) (b : BucketSize) (commits : List AuthorCommit)
    (ident : RawAuthor) : ContributorSeries :=
  let mine := commits.filter (fun c => resolveIdentity mailmap c.author == ident)
  let keys := (mine.map (fun c => bucketStart b c.timestamp)).dedup
  ⟨ident.name, ident.email, mine.length,
   keys.map (fun k => ⟨k, mine.countP (fun c => bucketStart b c.timestamp == k)⟩)⟩

/-- Insertion step of the descending-by-total sort used by the
aggregator. -/
def insertByTotalDesc (x : ContributorSeries) : List ContributorSeries → List ContributorSeries
  | [] => [x]
  | y :: ys =>
    if x.totalCommits < y.totalCommits then y :: insertByTotalDesc x ys
    else x :: y :: ys

/-- Sort contributor series by total commit count, descending. -/
def sortByTotalDesc : List ContributorSeries → List ContributorSeries
  | [] => []
  | x :: xs => insertByTotalDesc x (sortByTotalDesc xs)

/-- Modelled from the spec: the section 4.6 aggregation — resolve every
commit's author, build one series per distinct identity, sort identities
by total commit count descending, and keep at most `topN`; the
implementing `git-service.ts` is not among the provided sources. -/
def aggregate (commits : List AuthorCommit) (mailmap : List MailmapEntry)
    (topN : Nat) (b : BucketSize) : List ContributorSeries :=
  let idents := (commits.map (fun c => resolveIdentity mailmap c.author)).dedup
  (sortByTotalDesc (idents.map (seriesFor mailmap b commits))).take topN

/-- One subprocess invocation of the VCS command runner, identified by its
argument vector. -/
structure GitCall where
  args : List String
deriving DecidableEq

/-- The repository state the enumeration calls read: the full branch ref
list and the refs merged into main. -/
structure RepoState where
  branchRefs : List String
  mergedRefs : List String

/-- Modelled from the spec: the single subprocess call enumerating all
branch refs, returning the ref names together with the call it issued. -/
def enumerateBranchRefs (repo : RepoState) : List String × GitCall :=
  (repo.branchRefs, ⟨["branch", "-a", "--format=%(refname:short)"]⟩)

/-- Modelled from the spec: the single subprocess call enumerating the
refs merged into main. -/
def enumerateMergedRefs (repo : RepoState) : List String × GitCall :=
  (repo.mergedRefs, ⟨["branch", "-a", "--merged", "main"]⟩)

/-- Modelled from the spec: section 4.2 `listBasic` — one call to
enumerate branch refs, one call to enumerate merged refs, merged into
`Branch.isMerged`; the implementing `git-service.ts` is not among the
provided sources.  Returns the branch list together with the trace of
issued subprocess calls. -/
def listBasic (repo : RepoState) : List Branch × List GitCall :=
  let refs := enumerateBranchRefs repo
  let merged := enumerateMergedRefs repo
  (refs.1.map (fun n => ⟨n, false, false, merged.1.contains n, false⟩),
   [refs.2, merged.2])

/-! Helper lemmas shared by the claim theorems. -/

/-- Bridge from the boolean `isPrefixOf` to the list prefix order. -/
theorem isPrefixOf_true_iff (p s : List Char) :
    p.isPrefixOf s = true ↔ List.IsPrefix p s :=
  List.isPrefixOf_iff_prefix

/-- Two prefixes of the same list are comparable. -/
theorem prefix_comparable {p q s : List Char} (h₁ : List.IsPrefix p s)
    (h₂ : List.IsPrefix q s) : List.IsPrefix p q ∨ List.IsPrefix q p :=
  List.prefix_or_prefix_of_prefix h₁ h₂

/-- If `q` is a prefix of `s` and `p` is incomparable with `q`, then `p`
is not a prefix of `s`. -/
theorem prefixExcl (p : List Char) {q s : List Char} (hq : List.IsPrefix q s)
    (h₁ : ¬ List.IsPrefix p q) (h₂ : ¬ List.IsPrefix q p) :
    p.isPrefixOf s = false := by
  rw [Bool.eq_false_iff]
  intro hp
  rcases prefix_comparable ((isPrefixOf_true_iff p s).mp hp) hq with h | h
  · exact h₁ h
  · exact h₂ h

/-! Theorems settling the claims. -/

/-- C1 (counterexample): with the aggregation throwing, the
`get-contributor-stats` and `get-merged-branch-tree` handlers do not
surface an error value; each resolves successfully with a fabricated
empty payload. -/
theorem analyticsHandlersFabricateSuccess :
    getContributorStatsHandler none (Except.error "fatal: not a git repository")
      = Except.ok (contributorStatsFallback none) ∧
    getMergedBranchTreeHandler none (Except.error "fatal: not a git repository")
      = Except.ok mergedBranchTreeFallback ∧
    (contributorStatsFallback none).contributors = [] ∧
    mergedBranchTreeFallback.nodes = [] :=
  ⟨rfl, rfl, rfl, rfl⟩

/-- C1 (amended): for every outcome of the underlying aggregation —
including every thrown fatal error — the `get-contributor-stats` and
`get-merged-branch-tree` handlers resolve successfully (they catch the
error and return a fallback payload rather than surfacing an error
value). -/
theorem analyticsHandlersNeverError (b : Option BucketSize) (lim : Option Nat)
    (o₁ : Except String ContributorStatsPayload) (o₂ : Except String TechTreeData) :
    (getContributorStatsHandler b o₁).isOk = true ∧
    (getMergedBranchTreeHandler lim o₂).isOk = true := by
  constructor
  · cases o₁ <;> rfl
  · cases o₂ <;> rfl

/-- C2: the `get-branches-basic` and `get-branches-with-metadata`
handlers map a successful enumeration to the branch list and a thrown
error to an `{error}` value carrying its message; being total functions
into `BranchesResult`, they never propagate the exception. -/
theorem branchHandlersNoThrow (outcome : Except String (List Branch)) :
    (∀ bs, outcome = Except.ok bs →
      getBranchesBasicHandler outcome = .branches bs ∧
      getBranchesWithMetadataHandler outcome = .branches bs) ∧
    (∀ m, outcome = Except.error m →
      getBranchesBasicHandler outcome = .error m ∧
      getBranchesWithMetadataHandler outcome = .error m) := by
  constructor
  · intro bs h
    subst h
    exact ⟨rfl, rfl⟩
  · intro m h
    subst h
    exact ⟨rfl, rfl⟩

/-- C2 (witness): the handlers at a concrete failed enumeration. -/
theorem branchHandlersNoThrowWitness :
    getBranchesBasicHandler (Except.error "not a repository") = .error "not a repository" ∧
    getBranchesWithMetadataHandler (Except.error "not a repository") = .error "not a repository" :=
  (branchHandlersNoThrow (Except.error "not a repository")).2 "not a repository" rfl

/-- C4: the lane assignment is deterministic — on two identical
newest-first commit lists whose parent links form a DAG, it yields
identical lane indices. -/
theorem assignLanesDeterministic (l₁ l₂ : List Commit)
    (hdag : topoOrdered l₁ = true) (heq : l₁ = l₂) :
    assignLanes l₁ = assignLanes l₂ := by
  rw [heq]

/-- C4 (witness): determinism at a concrete three-commit DAG with a merge
commit. -/
theorem assignLanesDeterministicWitness :
    topoOrdered [⟨"c", ["a", "b"]⟩, ⟨"a", []⟩, ⟨"b", []⟩] = true ∧
    assignLanes [⟨"c", ["a", "b"]⟩, ⟨"a", []⟩, ⟨"b", []⟩]
      = assignLanes [⟨"c", ["a", "b"]⟩, ⟨"a", []⟩, ⟨"b", []⟩] :=
  ⟨by decide,
   assignLanesDeterministic [⟨"c", ["a", "b"]⟩, ⟨"a", []⟩, ⟨"b", []⟩]
     [⟨"c", ["a", "b"]⟩, ⟨"a", []⟩, ⟨"b", []⟩] (by decide) rfl⟩

/-- C6 (counterexample): the section 8 scenario node (12 added, 3 removed
lines) is classified `sm` by the spec's own thresholds (15 total changed
lines is not below the `xs` bound 10), not `xs` as the scenario states. -/
theorem scenarioNodeNotXs :
    scenarioNode.sizeTier = SizeTier.sm ∧ scenarioNode.sizeTier ≠ SizeTier.xs := by
  constructor
  · rfl
  · decide

/-- C6 (amended): the scenario merge from `fix/login-bug` with 12 added
and 3 removed lines across 2 files, merged 1 day ago, yields one node
with `branchType = fix`, `sizeTier = sm`, badges `surgical` and `fresh`
true and all other badges false. -/
theorem scenarioNodeClassified :
    scenarioNode.branchType = BranchType.fix ∧
    scenarioNode.sizeTier = SizeTier.sm ∧
    scenarioNode.badges = ⟨false, false, false, false, true, false, true⟩ := by
  refine ⟨?_, rfl, ?_⟩ <;> decide

/-- C8: the call trace of `listBasic` is the same for every repository
state — in particular its length is the constant 2 (one branch-ref
enumeration, one merged-ref enumeration), independent of the number of
branches. -/
theorem listBasicConstantCalls (repo₁ repo₂ : RepoState) :
    (listBasic repo₁).2 = (listBasic repo₂).2 ∧ (listBasic repo₁).2.length = 2 :=
  ⟨rfl, rfl⟩

/-- C9: when the underlying call throws, the `get-contributor-stats`
handler returns exactly the empty payload with the requested bucket size
defaulting to `week`, and the `get-merged-branch-tree` handler returns
exactly the fixed fallback tree; both handlers resolve (never rethrow)
for every outcome. -/
theorem analyticsHandlersFallbackShape (msg : String) (b : Option BucketSize)
    (lim : Option Nat) (o₁ : Except String ContributorStatsPayload)
    (o₂ : Except String TechTreeData) :
    getContributorStatsHandler b (Except.error msg)
      = Except.ok ⟨[], "", "", b.getD BucketSize.week⟩ ∧
    getMergedBranchTreeHandler lim (Except.error msg)
      = Except.ok ⟨"main", [], ⟨0, 1, 0, 1, 0, 1⟩⟩ ∧
    (getContributorStatsHandler b o₁).isOk = true ∧
    (getMergedBranchTreeHandler lim o₂).isOk = true := by
  refine ⟨rfl, rfl, ?_, ?_⟩
  · cases o₁ <;> rfl
  · cases o₂ <;> rfl

/-- C10: `filterBranches` with the `unmerged` filter returns exactly the
branches that are unmerged or named `main`/`master`, in input order (it
is the filter of the input list by that predicate), and with the `all`
filter it returns the input unchanged. -/
theorem filterBranchesSpec (l : List Branch) :
    filterBranches l .unmerged
      = l.filter (fun b => decide (b.isMerged = false ∨ b.name = "main" ∨ b.name = "master")) ∧
    filterBranches l .all = l := by
  constructor
  · apply List.filter_congr
    intro b _
    by_cases h₁ : b.isMerged <;> by_cases h₂ : b.name = "main" <;>
      by_cases h₃ : b.name = "master" <;> simp [h₁, h₂, h₃]
  · rfl

/-- Monotonicity of the size tier classification over the tier order. -/
theorem tierIdxMono (a b : Nat) (h : a ≤ b) :
    tierIdx (classifySizeTier a) ≤ tierIdx (classifySizeTier b) := by
  unfold classifySizeTier
  split_ifs <;> simp only [tierIdx] <;> omega

/-- C7: the `sizeTier` classification is monotonically non-decreasing in
total changed lines (in the order `xs < sm < md < lg < xl`) and total:
every stats record is assigned one of the five tiers. -/
theorem sizeTierMonotoneTotal :
    (∀ s₁ s₂ : TechTreeNodeStats, totalLines s₁ ≤ totalLines s₂ →
      tierIdx (classifySizeTier (totalLines s₁)) ≤ tierIdx (classifySizeTier (totalLines s₂))) ∧
    (∀ n : Nat, classifySizeTier n = SizeTier.xs ∨ classifySizeTier n = SizeTier.sm ∨
      classifySizeTier n = SizeTier.md ∨ classifySizeTier n = SizeTier.lg ∨
      classifySizeTier n = SizeTier.xl) := by
  constructor
  · intro s₁ s₂ h
    exact tierIdxMono _ _ h
  · intro n
    unfold classifySizeTier
    split_ifs <;> simp

/-- C7 (witness): monotonicity at concrete stats with 3 and 150 total
changed lines. -/
theorem sizeTierMonotoneTotalWitness :
    totalLines ⟨1, 2, 1, 0, 0, 1, 1⟩ ≤ totalLines ⟨100, 50, 4, 0, 0, 9, 1⟩ ∧
    tierIdx (classifySizeTier (totalLines ⟨1, 2, 1, 0, 0, 1, 1⟩))
      ≤ tierIdx (classifySizeTier (totalLines ⟨100, 50, 4, 0, 0, 9, 1⟩)) :=
  ⟨by decide, sizeTierMonotoneTotal.1 ⟨1, 2, 1, 0, 0, 1, 1⟩ ⟨100, 50, 4, 0, 0, 9, 1⟩ (by decide)⟩

/-- C5: the branch type classification follows the ordered prefix rules,
first match wins: each of the eight prefixes forces its type, and a name
matching none of them is `unknown`. -/
theorem classifyBranchTypeRules (name : List Char) :
    (("feature/".toList).isPrefixOf name = true → classifyBranchType name = BranchType.feature) ∧
    (("fix/".toList).isPrefixOf name = true → classifyBranchType name = BranchType.fix) ∧
    (("bugfix/".toList).isPrefixOf name = true → classifyBranchType name = BranchType.fix) ∧
    (("chore/".toList).isPrefixOf name = true → classifyBranchType name = BranchType.chore) ∧
    (("refactor/".toList).isPrefixOf name = true → classifyBranchType name = BranchType.refactor) ∧
    (("docs/".toList).isPrefixOf name = true → classifyBranchType name = BranchType.docs) ∧
    (("test/".toList).isPrefixOf name = true → classifyBranchType name = BranchType.test) ∧
    (("release/".toList).isPrefixOf name = true → classifyBranchType name = BranchType.release) ∧
    ((("feature/".toList).isPrefixOf name = false ∧ ("fix/".toList).isPrefixOf name = false ∧
      ("bugfix/".toList).isPrefixOf name = false ∧ ("chore/".toList).isPrefixOf name = false ∧
      ("refactor/".toList).isPrefixOf name = false ∧ ("docs/".toList).isPrefixOf name = false ∧
      ("test/".toList).isPrefixOf name = false ∧ ("release/".toList).isPrefixOf name = false) →
      classifyBranchType name = BranchType.unknown) := by
  refine ⟨?_, ?_, ?_, ?_, ?_, ?_, ?_, ?_, ?_⟩
  · intro h
    unfold classifyBranchType
    rw [h]
    simp
  · intro h
    have hq := (isPrefixOf_true_iff _ _).mp h
    have e₁ := prefixExcl ("feature/".toList) hq (by decide) (by decide)
    unfold classifyBranchType
    rw [e₁, h]
    simp
  · intro h
    have hq := (isPrefixOf_true_iff _ _).mp h
    have e₁ := prefixExcl ("feature/".toList) hq (by decide) (by decide)
    have e₂ := prefixExcl ("fix/".toList) hq (by decide) (by decide)
    unfold classifyBranchType
    rw [e₁, e₂, h]
    simp
  · intro h
    have hq := (isPrefixOf_true_iff _ _).mp h
    have e₁ := prefixExcl ("feature/".toList) hq (by decide) (by decide)
    have e₂ := prefixExcl ("fix/".toList) hq (by decide) (by decide)
    have e₃ := prefixExcl ("bugfix/".toList) hq (by decide) (by decide)
    unfold classifyBranchType
    rw [e₁, e₂, e₃, h]
    simp
  · intro h
    have hq := (isPrefixOf_true_iff _ _).mp h
    have e₁ := prefixExcl ("feature/".toList) hq (by decide) (by decide)
    have e₂ := prefixExcl ("fix/".toList) hq (by decide) (by decide)
    have e₃ := prefixExcl ("bugfix/".toList) hq (by decide) (by decide)
    have e₄ := prefixExcl ("chore/".toList) hq (by decide) (by decide)
    unfold classifyBranchType
    rw [e₁, e₂, e₃, e₄, h]
    simp
  · intro h
    have hq := (isPrefixOf_true_iff _ _).mp h
    have e₁ := prefixExcl ("feature/".toList) hq (by decide) (by decide)
    have e₂ := prefixExcl ("fix/".toList) hq (by decide) (by decide)
    have e₃ := prefixExcl ("bugfix/".toList) hq (by decide) (by decide)
    have e₄ := prefixExcl ("chore/".toList) hq (by decide) (by decide)
    have e₅ := prefixExcl ("refactor/".toList) hq (by decide) (by decide)
    unfold classifyBranchType
    rw [e₁, e₂, e₃, e₄, e₅, h]
    simp
  · intro h
    have hq := (isPrefixOf_true_iff _ _).mp h
    have e₁ := prefixExcl ("feature/".toList) hq (by decide) (by decide)
    have e₂ := prefixExcl ("fix/".toList) hq (by decide) (by decide)
    have e₃ := prefixExcl ("bugfix/".toList) hq (by decide) (by decide)
    have e₄ := prefixExcl ("chore/".toList) hq (by decide) (by decide)
    have e₅ := prefixExcl ("refactor/".toList) hq (by decide) (by decide)
    have e₆ := prefixExcl ("docs/".toList) hq (by decide) (by decide)
    unfold classifyBranchType
    rw [e₁, e₂, e₃, e₄, e₅, e₆, h]
    simp
  · intro h
    have hq := (isPrefixOf_true_iff _ _).mp h
    have e₁ := prefixExcl ("feature/".toList) hq (by decide) (by decide)
    have e₂ := prefixExcl ("fix/".toList) hq (by decide) (by decide)
    have e₃ := prefixExcl ("bugfix/".toList) hq (by decide) (by decide)
    have e₄ := prefixExcl ("chore/".toList) hq (by decide) (by decide)
    have e₅ := prefixExcl ("refactor/".toList) hq (by decide) (by decide)
    have e₆ := prefixExcl ("docs/".toList) hq (by decide) (by decide)
    have e₇ := prefixExcl ("test/".toList) hq (by decide) (by decide)
    unfold classifyBranchType
    rw [e₁, e₂, e₃, e₄, e₅, e₆, e₇, h]
    simp
  · intro h
    obtain ⟨h₁, h₂, h₃, h₄, h₅, h₆, h₇, h₈⟩ := h
    unfold classifyBranchType
    rw [h₁, h₂, h₃, h₄, h₅, h₆, h₇, h₈]
    simp

/-- C5 (witness): the rules at a concrete `release/` name and at a name
matching no prefix. -/
theorem classifyBranchTypeRulesWitness :
    classifyBranchType ("release/1.0".toList) = BranchType.release ∧
    classifyBranchType ("my-experiment".toList) = BranchType.unknown :=
  ⟨(classifyBranchTypeRules ("release/1.0".toList)).2.2.2.2.2.2.2.1 (by decide),
   (classifyBranchTypeRules ("my-experiment".toList)).2.2.2.2.2.2.2.2 (by decide)⟩

/-- Partition lemma for natural-number keys: summing, over the distinct
keys of a list, the number of elements mapped to each key gives the
length of the list. -/
theorem sumCountPNatKey {α : Type} (f : α → Nat) (l : List α) :
    ((l.map f).dedup.map (fun k => l.countP (fun a => f a == k))).sum = l.length := by
  have hcnt : ∀ k : Nat, l.countP (fun a => f a == k) = (l.map f).count k := by
    intro k
    rw [List.count, List.countP_map]
    rfl
  calc ((l.map f).dedup.map (fun k => l.countP (fun a => f a == k))).sum
      = ((l.map f).dedup.map (fun k => (l.map f).count k)).sum := by
        congr 1
        exact List.map_congr_left (fun k _ => hcnt k)
    _ = (l.map f).length := List.sum_map_count_dedup_eq_length _
    _ = l.length := by simp

/-- Partition lemma for author-identity keys, as `sumCountPNatKey`. -/
theorem sumCountPAuthorKey {α : Type} (f : α → RawAuthor) (l : List α) :
    ((l.map f).dedup.map (fun k => l.countP (fun a => f a == k))).sum = l.length := by
  have hcnt : ∀ k : RawAuthor, l.countP (fun a => f a == k) = (l.map f).count k := by
    intro k
    rw [List.count, List.countP_map]
    rfl
  calc ((l.map f).dedup.map (fun k => l.countP (fun a => f a == k))).sum
      = ((l.map f).dedup.map (fun k => (l.map f).count k)).sum := by
        congr 1
        exact List.map_congr_left (fun k _ => hcnt k)
    _ = (l.map f).length := List.sum_map_count_dedup_eq_length _
    _ = l.length := by simp

/-- The counts of one contributor's series sum to that contributor's
`totalCommits`. -/
theorem seriesForSum (mailmap : List MailmapEntry) (b : BucketSize)
    (commits : List AuthorCommit) (ident : RawAuthor) :
    ((seriesFor mailmap b commits ident).timeSeries.map (fun pt => pt.count)).sum
      = (seriesFor mailmap b commits ident).totalCommits := by
  simp only [seriesFor, List.map_map]
  exact sumCountPNatKey (fun c => bucketStart b c.timestamp)
    (commits.filter (fun c => resolveIdentity mailmap c.author == ident))

/-- Inserting preserves the multiset of series. -/
theorem insertByTotalDescPerm (x : ContributorSeries) (l : List ContributorSeries) :
    List.Perm (insertByTotalDesc x l) (x :: l) := by
  induction l with
  | nil => exact List.Perm.refl _
  | cons y ys ih =>
    simp only [insertByTotalDesc]
    split_ifs with h
    · exact (ih.cons y).trans (List.Perm.swap x y ys)
    · exact List.Perm.refl _

/-- The descending sort permutes its input. -/
theorem sortByTotalDescPerm (l : List ContributorSeries) :
    List.Perm (sortByTotalDesc l) l := by
  induction l with
  | nil => exact List.Perm.refl _
  | cons x xs ih => exact (insertByTotalDescPerm x (sortByTotalDesc xs)).trans (ih.cons x)

/-- C3: in every aggregation result, each contributor's time-series
counts sum to that contributor's `totalCommits`, and the totals of the
returned contributors sum to at most the number of commits in the window
(the `topN` truncation removes whole contributors only). -/
theorem aggregateTotals (commits : List AuthorCommit) (mailmap : List MailmapEntry)
    (topN : Nat) (b : BucketSize) :
    (∀ s ∈ aggregate commits mailmap topN b,
      (s.timeSeries.map (fun pt => pt.count)).sum = s.totalCommits) ∧
    ((aggregate commits mailmap topN b).map (fun s => s.totalCommits)).sum
      ≤ commits.length := by
  constructor
  · intro s hs
    have hs₁ : s ∈ sortByTotalDesc
        (((commits.map (fun c => resolveIdentity mailmap c.author)).dedup).map
          (seriesFor mailmap b commits)) :=
      List.mem_of_mem_take hs
    have hs₂ : s ∈ ((commits.map (fun c => resolveIdentity mailmap c.author)).dedup).map
        (seriesFor mailmap b commits) :=
      (sortByTotalDescPerm _).mem_iff.mp hs₁
    obtain ⟨ident, _, hident⟩ := List.mem_map.mp hs₂
    rw [← hident]
    exact seriesForSum mailmap b commits ident
  · have hsub : List.Sublist
        ((aggregate commits mailmap topN b).map (fun s => s.totalCommits))
        ((sortByTotalDesc
          (((commits.map (fun c => resolveIdentity mailmap c.author)).dedup).map
            (seriesFor mailmap b commits))).map (fun s => s.totalCommits)) :=
      (List.take_sublist _ _).map _
    have h₁ := List.Sublist.sum_le_sum hsub (fun a _ => Nat.zero_le a)
    have h₂ : ((sortByTotalDesc
        (((commits.map (fun c => resolveIdentity mailmap c.author)).dedup).map
          (seriesFor mailmap b commits))).map (fun s => s.totalCommits)).sum
        = ((((commits.map (fun c => resolveIdentity mailmap c.author)).dedup).map
          (seriesFor mailmap b commits)).map (fun s => s.totalCommits)).sum :=
      ((sortByTotalDescPerm _).map _).sum_eq
    have h₃ : ((((commits.map (fun c => resolveIdentity mailmap c.author)).dedup).map
        (seriesFor mailmap b commits)).map (fun s => s.totalCommits)).sum
        = commits.length := by
      rw [List.map_map]
      have hpt : ∀ k ∈ (commits.map (fun c => resolveIdentity mailmap c.author)).dedup,
          ((fun s => s.totalCommits) ∘ seriesFor mailmap b commits) k
            = commits.countP (fun c => resolveIdentity mailmap c.author == k) := by
        intro k _
        simp [seriesFor, Function.comp, List.countP_eq_length_filter]
      rw [List.map_congr_left hpt]
      exact sumCountPAuthorKey (fun c => resolveIdentity mailmap c.author) commits
    exact h₁.trans (le_of_eq (h₂.trans h₃))

/-- C3 (witness): the invariants at a concrete two-commit history of one
author. -/
theorem aggregateTotalsWitness :
    (((⟨"Ann", "a@x", 2, [⟨0, 2⟩]⟩ : ContributorSeries).timeSeries.map
        (fun pt => pt.count)).sum
      = (⟨"Ann", "a@x", 2, [⟨0, 2⟩]⟩ : ContributorSeries).totalCommits) ∧
    ((aggregate [⟨⟨"Ann", "a@x"⟩, 0⟩, ⟨⟨"Ann", "a@x"⟩, 3⟩] [] 1 BucketSize.week).map
        (fun s => s.totalCommits)).sum
      ≤ ([⟨⟨"Ann", "a@x"⟩, 0⟩, ⟨⟨"Ann", "a@x"⟩, 3⟩] : List AuthorCommit).length :=
  ⟨(aggregateTotals [⟨⟨"Ann", "a@x"⟩, 0⟩, ⟨⟨"Ann", "a@x"⟩, 3⟩] [] 1 BucketSize.week).1
      ⟨"Ann", "a@x", 2, [⟨0, 2⟩]⟩ (by decide),
   (aggregateTotals [⟨⟨"Ann", "a@x"⟩, 0⟩, ⟨⟨"Ann", "a@x"⟩, 3⟩] [] 1 BucketSize.week).2⟩

end Ledger
